import Mathlib

/-!
Shallow embedding of the cereal-convert serial-fiction delivery service
(ingestion pipeline, delivery scheduler, provider URL validation and
delivery-method verification), translated from the Rust sources in `src/`.

Conventions of the embedding:
* UUIDs are modelled as `Nat`, user ids as `String`.
* `TIMESTAMPTZ` values are modelled as `Int` microseconds since the Unix
  epoch (chrono timestamps are totally ordered; only order and differences
  matter to the code under study).
* Database queries, S3 calls, child processes and HTTP sends are modelled
  as explicit oracle parameters returning `Except String _`, mirroring the
  `Result` values the Rust code matches on.
-/

namespace Cereal

/-- Model of `RoyalRoadBookKind` (src/providers/royalroad.rs). -/
structure RoyalRoadBookKind where
  id : Nat
deriving DecidableEq

/-- Model of `BookKind` tagged variant (src/models.rs). -/
inductive BookKind where
  | RoyalRoad (k : RoyalRoadBookKind)
  | Pale
  | APracticalGuideToEvil
  | TheWanderingInn
  | TheWanderingInnPatreon
  | TheDailyGrindPatreon
deriving DecidableEq

/-- Model of `ChapterKind` tagged variant (src/models.rs); the tagged value is the
chapter identity used by ingestion. -/
inductive ChapterKind where
  | RoyalRoad (id : Nat)
  | Pale (url : String)
  | APracticalGuideToEvil (url : String)
  | TheWanderingInn (url : String)
  | TheWanderingInnPatreon (url : String) (password : Option String)
  | TheDailyGrindPatreon (html : String)
deriving DecidableEq

/-- Model of `Book` row (src/models.rs). -/
structure Book where
  id : Nat
  name : String
  author : String
  created_at : Int
  updated_at : Int
  metadata : BookKind
deriving DecidableEq

/-- Model of `NewChapter` (src/models.rs): a chapter listed by a provider, before it
has a database identity. -/
structure NewChapter where
  name : String
  author : String
  book_id : Nat
  metadata : ChapterKind
  published_at : Int
deriving DecidableEq

/-- Model of `Chapter` row (src/models.rs). -/
structure Chapter where
  id : Nat
  name : String
  author : String
  created_at : Int
  updated_at : Int
  book_id : Nat
  published_at : Int
  metadata : ChapterKind
deriving DecidableEq

/-- Model of `Subscription` row (src/models.rs). -/
structure Subscription where
  book_id : Nat
  created_at : Int
  user_id : String
  grouping_quantity : Int
  last_chapter_id : Option Nat
deriving DecidableEq

/-- Model of `ChapterBody` row (src/models.rs): object-store location of a chapter
body, keyed by chapter. -/
structure ChapterBody where
  key : String
  bucket : String
  chapter_id : Nat
deriving DecidableEq

/-- Model of `rusoto_s3::S3Location` as used by storage.rs (`prefix` is the object
key; the field is named `key` here because of its meaning). -/
structure S3Loc where
  bucket : String
  key : String
deriving DecidableEq

/-- Model of `DeliveryMethod` row (src/models.rs). -/
structure DeliveryMethod where
  user_id : String
  kindle_email : Option String
  kindle_email_verified : Bool
  kindle_email_enabled : Bool
  kindle_email_verification_code_time : Option Int
  kindle_email_verification_code : Option String
  pushover_key : Option String
  pushover_key_verified : Bool
  pushover_enabled : Bool
  created_at : Int
  updated_at : Int
  pushover_verification_code_time : Option Int
  pushover_verification_code : Option String
deriving DecidableEq

/-- Model of `DeliveryMethod::get_pushover_key` (src/models.rs:203-209). -/
def DeliveryMethod.get_pushover_key (dm : DeliveryMethod) : Option String :=
  if dm.pushover_enabled ∧ dm.pushover_key_verified then dm.pushover_key else none

/-- Model of `DeliveryMethod.get_kindle_email` (src/models.rs:211-217). -/
def DeliveryMethod.get_kindle_email (dm : DeliveryMethod) : Option String :=
  if dm.kindle_email_enabled ∧ dm.kindle_email_verified then dm.kindle_email else none

/-- Model of `ChapterWithUser` row produced by the raw pending-delivery SQL query in
`send_notifications` (src/tasks.rs:287-299). The struct declaration itself
is not among the source files, but every field is forced by the query
(`select subs_with_timestamp.user_id, subs_with_timestamp.grouping_quantity,
chapters.*`) and by the struct literal at src/tasks.rs:310-319. -/
structure ChapterWithUser where
  user_id : String
  grouping_quantity : Int
  chapter : Chapter
deriving DecidableEq

/-! ## Ingestion pipeline (src/tasks.rs) -/

/-- The `published_at` of the oldest listed chapter:
`rss_chapters.iter().min_by(|x, y| x.published_at.cmp(&y.published_at))`
(src/tasks.rs:243-246), for a nonempty listing headed by `x`. -/
def oldestPublishedAt (x : NewChapter) (xs : List NewChapter) : Int :=
  (xs.map (·.published_at)).foldl min x.published_at

/-- Model of `get_new_chapters` (src/tasks.rs:214-263) after the provider listing
has been fetched: `rss` is the provider result, `db` the chapters table.
The DB query is `Chapter::belonging_to(book)` (rows with this book id)
filtered by `published_at.ge(oldest)`; the descending order of the query
does not affect the metadata set. A listed chapter is kept iff its
`metadata` is not among the existing metadata values. -/
def getNewChapters (book : Book) (rss : List NewChapter) (db : List Chapter) :
    List NewChapter :=
  match rss with
  | [] => []
  | x :: xs =>
    let oldest := oldestPublishedAt x xs
    let existingMeta :=
      (db.filter (fun c => c.book_id = book.id ∧ oldest ≤ c.published_at)).map (·.metadata)
    (x :: xs).filter (fun r => ¬ (r.metadata ∈ existingMeta))

/-- The `(body, chapter)` pairs surviving the body-fetch step of
`fetch_chapter_bodies` (src/tasks.rs:188-197): fetch results are zipped
with the chapters and failing fetches are dropped. `fetch` is the oracle
for the provider-specific `fetch_chapter_body` call. -/
def fetchedPairs (chapters : List NewChapter)
    (fetch : NewChapter → Except String String) : List (String × NewChapter) :=
  ((chapters.map fetch).zip chapters).filterMap fun p =>
    match p.1 with
    | .ok b => some (b, p.2)
    | .error _ => none

/-- The bodies handed to `storage::store_book` by `fetch_chapter_bodies`
(src/tasks.rs:198-204): exactly the first components of the surviving
pairs, in order, unmodified. -/
def storeInputs (chapters : List NewChapter)
    (fetch : NewChapter → Except String String) : List String :=
  (fetchedPairs chapters fetch).map (·.1)

/-- Model of `fetch_chapter_bodies` (src/tasks.rs:185-206): the list of store
results it returns to its caller. `store` is the oracle for
`storage::store_book`. Note the length of the result is the number of
chapters whose body fetch succeeded, not the number of chapters. -/
def fetchChapterBodies (chapters : List NewChapter)
    (fetch : NewChapter → Except String String)
    (store : String → Except String S3Loc) : List (Except String S3Loc) :=
  (fetchedPairs chapters fetch).map (fun bc => store bc.1)

/-- The `(chapter, location)` pairs that `check_for_new_chapters`
(src/tasks.rs:90-100) keeps after zipping the new chapters with the
result of `fetch_chapter_bodies` and dropping `Err` locations. A Chapter
row is inserted exactly for the first components, and the ChapterBody row
of each inserted chapter is built from the paired location
(src/tasks.rs:101-121). -/
def insertedPairs (chaps : List NewChapter) (locations : List (Except String S3Loc)) :
    List (NewChapter × S3Loc) :=
  (chaps.zip locations).filterMap fun p =>
    match p.2 with
    | .ok loc => some (p.1, loc)
    | .error _ => none

/-! ## Pending-delivery query (src/tasks.rs:287-299)

The raw SQL in `send_notifications`:

  select subs_with_timestamp.user_id, subs_with_timestamp.grouping_quantity,
         chapters.* from (
    select subscriptions.*, coalesce(max(chapters.published_at),
           TIMESTAMP '1982-05-20 22:06:05.944623+00') as last_chapter_timestamp
    from subscriptions
    left join chapters on chapters.id = last_chapter_id
    group by subscriptions.user_id, subscriptions.book_id) as subs_with_timestamp
  left join books on books.id = subs_with_timestamp.book_id
  left join chapters on chapters.book_id = books.id
  where chapters.published_at > subs_with_timestamp.last_chapter_timestamp
-/

/-- The value of `TIMESTAMP '1982-05-20 22:06:05.944623+00'`, the `coalesce` fallback
of the pending-delivery query, in microseconds since the Unix epoch. It is
not the Unix epoch. -/
def noChapterSentinel : Int := 390780365944623

/-- Model of `subs_with_timestamp.last_chapter_timestamp` for one subscription:
`coalesce(max(published_at of chapters with id = last_chapter_id),
sentinel)`. A NULL or dangling `last_chapter_id` yields the sentinel. -/
def lastChapterTimestamp (chapters : List Chapter) (s : Subscription) : Int :=
  (((chapters.filter (fun c => s.last_chapter_id = some c.id)).map
    (·.published_at)).max?).getD noChapterSentinel

/-- The row the query emits for subscription `s` and chapter `c`. -/
def mkRow (s : Subscription) (c : Chapter) : ChapterWithUser :=
  { user_id := s.user_id, grouping_quantity := s.grouping_quantity, chapter := c }

/-- The rows the pending-delivery query returns for one subscription: the
join with `books` on the subscription book id and with `chapters` of that
book, kept when `published_at > last_chapter_timestamp` (the WHERE clause
discards the NULL rows a left join would add). -/
def pendingForSub (books : List Book) (chapters : List Chapter)
    (s : Subscription) : List ChapterWithUser :=
  (books.filter (fun b => b.id = s.book_id)).flatMap fun b =>
    (chapters.filter (fun c =>
      c.book_id = b.id ∧ lastChapterTimestamp chapters s < c.published_at)).map (mkRow s)

/-- Model of `list_pending_deliveries`: the full result of the raw query over all
subscriptions (row order is immaterial to the scheduler, which groups the
rows). -/
def listPendingDeliveries (subs : List Subscription) (books : List Book)
    (chapters : List Chapter) : List ChapterWithUser :=
  subs.flatMap (pendingForSub books chapters)

/-! ## Grouping of pending rows (src/tasks.rs:301-324) -/

/-- One insertion step of the grouping loop: the model of
`chap_list.binary_search_by(|a| a.published_at.cmp(&new_chap.published_at))`
followed by `insert(pos, new_chap)` on `Err(pos)` and by nothing on
`Ok(_pos)` (src/tasks.rs:320-323). The vector is only ever built through
this step, so it is always sorted by `published_at` and binary search
reports `Ok` exactly when some element has the same `published_at`. -/
def insertByPublishedAt (c : Chapter) : List Chapter → List Chapter
  | [] => [c]
  | x :: xs =>
    if x.published_at < c.published_at then x :: insertByPublishedAt c xs
    else if c.published_at = x.published_at then x :: xs
    else c :: x :: xs

/-- The chapter list the grouping loop accumulates for the key
`(uid, (bid, gq))`: the rows are consumed in order and each row with this
key is inserted via `insertByPublishedAt` (src/tasks.rs:303-324). -/
def groupChapters (rows : List ChapterWithUser) (uid : String) (bid : Nat)
    (gq : Int) : List Chapter :=
  rows.foldl
    (fun acc r =>
      if r.user_id = uid ∧ r.chapter.book_id = bid ∧ r.grouping_quantity = gq
      then insertByPublishedAt r.chapter acc
      else acc)
    []

/-! ## Per-group delivery (src/tasks.rs:369-597)

`deliver_new_chapters` walks the grouped map; for each group it fetches
the `chapter_bodies` rows, checks the batching threshold, sends the
enabled channels and advances the watermark. All I/O of one group is
abstracted into a `GroupEnv` of oracles. -/

/-- The external effects one delivery group can perform, as oracles. -/
structure GroupEnv where
  /-- result of the `chapter_bodies` query for the group's chapter ids
  (connection acquisition failure folded in), ordered by `chapter_id`
  ascending as in the source query (src/tasks.rs:381-417). -/
  dbBodies : Except String (List ChapterBody)
  /-- Model of `storage::fetch_book` on one body location (src/tasks.rs:527-539). -/
  s3Fetch : ChapterBody → Except String String
  /-- Model of `calibre::generate_mobi` on the concatenated text; the cover title,
  book title and author arguments are absorbed into the oracle
  (src/tasks.rs:555-562). -/
  convert : String → Except String String
  /-- result of `pushover::send_message`, when called (src/tasks.rs:495-516).
  The message text does not influence success and is not modelled. -/
  pushoverSend : Except String Unit
  /-- result of `mailgun::send_mobi_file`, when called (src/tasks.rs:578-593). -/
  emailSend : Except String Unit
  /-- result of the `update subscriptions set last_chapter_id = _` statement
  (src/tasks.rs:470-485). -/
  dbUpdate : Except String Unit

/-- Everything observable about the processing of one group. -/
structure GroupOutcome where
  /-- the threshold branch `chapters_with_body.len() as i64 >= grouping_quantity`
  was entered (src/tasks.rs:424). -/
  dispatched : Bool
  /-- Model of `pushover::send_message` was called. -/
  pushoverAttempted : Bool
  /-- Model of `mailgun::send_mobi_file` was called. -/
  emailAttempted : Bool
  /-- Holds `some cid` iff the watermark update statement ran and succeeded,
  writing `cid` as the new `last_chapter_id`. -/
  watermark : Option Nat
  /-- an error was recorded for this group (`errors.push(...)`/`continue`). -/
  failed : Bool
deriving DecidableEq

/-- Model of `send_pushover_if_enabled` (src/tasks.rs:487-520): the send happens
iff `get_pushover_key()` is `Some`. Returns (attempted, result). -/
def pushoverStep (dm : DeliveryMethod) (env : GroupEnv) : Bool × Except String Unit :=
  match dm.get_pushover_key with
  | some _ => (true, env.pushoverSend)
  | none => (false, .ok ())

/-- Rust `collect::<Result<Vec<_>, _>>()`: all values, or the first error. -/
def collectExcept {α : Type} : List (Except String α) → Except String (List α)
  | [] => .ok []
  | x :: xs =>
    match x with
    | .error e => .error e
    | .ok a =>
      match collectExcept xs with
      | .error e => .error e
      | .ok l => .ok (a :: l)

/-- Model of `send_kindle_if_enabled` (src/tasks.rs:522-567): fetch every body
location from the object store, concatenate, convert; only then, iff
`get_kindle_email()` is `Some`, send the email. The fetches and the
conversion run even when the kindle channel is disabled. Returns
(email attempted, result). -/
def kindleStep (dm : DeliveryMethod) (chaptersWithBody : List (Chapter × ChapterBody))
    (env : GroupEnv) : Bool × Except String Unit :=
  match collectExcept (chaptersWithBody.map (fun cb => env.s3Fetch cb.2)) with
  | .error e => (false, .error e)
  | .ok texts =>
    match env.convert (String.join texts) with
    | .error e => (false, .error e)
    | .ok _ =>
      match dm.get_kindle_email with
      | some _ => (true, env.emailSend)
      | none => (false, .ok ())

/-- The body of the inner loop of `deliver_new_chapters` for one group
(src/tasks.rs:381-464): fetch `chapter_bodies` rows, zip the group's
chapters with them (positionally) and stably sort the pairs by
`published_at`; if the pair count meets the threshold, run pushover,
kindle, then the watermark update, stopping (with an error recorded) at
the first failure. The watermark written is
`chapters[chapters.len() - 1].id` of the group's own list. -/
def deliverGroup (dm : DeliveryMethod) (gq : Int) (chapters : List Chapter)
    (env : GroupEnv) : GroupOutcome :=
  match env.dbBodies with
  | .error _ =>
    { dispatched := false, pushoverAttempted := false, emailAttempted := false,
      watermark := none, failed := true }
  | .ok bodies =>
    let chaptersWithBody :=
      (chapters.zip bodies).insertionSort
        (fun a b => a.1.published_at ≤ b.1.published_at)
    if gq ≤ (chaptersWithBody.length : Int) then
      let p := pushoverStep dm env
      match p.2 with
      | .error _ =>
        { dispatched := true, pushoverAttempted := p.1, emailAttempted := false,
          watermark := none, failed := true }
      | .ok _ =>
        let k := kindleStep dm chaptersWithBody env
        match k.2 with
        | .error _ =>
          { dispatched := true, pushoverAttempted := p.1, emailAttempted := k.1,
            watermark := none, failed := true }
        | .ok _ =>
          match env.dbUpdate with
          | .error _ =>
            { dispatched := true, pushoverAttempted := p.1, emailAttempted := k.1,
              watermark := none, failed := true }
          | .ok _ =>
            { dispatched := true, pushoverAttempted := p.1, emailAttempted := k.1,
              watermark := (chapters.getLast?).map (·.id), failed := false }
    else
      { dispatched := false, pushoverAttempted := false, emailAttempted := false,
        watermark := none, failed := false }

/-- The inner loop of `deliver_new_chapters` over one user's groups
(src/tasks.rs:378-465). `book_id_to_book.get(&book_id).unwrap()` panics
(result `none`) when the book id is missing from the lookup map. -/
def processGroups (dm : DeliveryMethod) (u : String)
    (gs : List ((Nat × Int) × List Chapter)) (books : List (Nat × Book))
    (env : String → Nat → Int → GroupEnv) : Option (List GroupOutcome) :=
  match gs with
  | [] => some []
  | ((bid, gq), chs) :: rest =>
    match books.lookup bid with
    | none => none
    | some _book =>
      (processGroups dm u rest books env).map
        (fun os => deliverGroup dm gq chs (env u bid gq) :: os)

/-- Model of `deliver_new_chapters` (src/tasks.rs:369-468) over the grouped map
(modelled as an association list in iteration order).
`user_to_delivery_method.get(&user_id).unwrap()` (src/tasks.rs:377) panics
when the user has no delivery-method row; a panic is modelled as `none`
and aborts the whole call, delivering nothing further. -/
def deliverNewChapters (groups : List (String × List ((Nat × Int) × List Chapter)))
    (methods : List (String × DeliveryMethod)) (books : List (Nat × Book))
    (env : String → Nat → Int → GroupEnv) : Option (List GroupOutcome) :=
  match groups with
  | [] => some []
  | (u, gs) :: rest =>
    match methods.lookup u with
    | none => none
    | some dm =>
      match processGroups dm u gs books env with
      | none => none
      | some os => (deliverNewChapters rest methods books env).map (os ++ ·)

/-! ## Provider URL validation (C8)

`reqwest::Url::parse` is abstracted: a raw string either fails to parse
(`none`) or yields a `ParsedUrl` carrying the components the validators
inspect. `pathSegments` is `none` for cannot-be-a-base URLs
(`Url::path_segments() == None`). -/

/-- The components of a parsed URL that the providers inspect. -/
structure ParsedUrl where
  scheme : String
  host : Option String
  pathSegments : Option (List String)
deriving DecidableEq

/-- Model of `util::validate_hostname` (src/util.rs:89-100): parse, then require a
host equal (string equality) to `valid`. -/
def validateHostname (u : Option ParsedUrl) (valid : String) : Except String Unit :=
  match u with
  | none => .error "url parse error"
  | some url =>
    match url.host with
    | some h => if valid ≠ h then .error "Provided hostname is not valid." else .ok ()
    | none => .error "Url has no host."

/-- Model of `pale::try_parse_url` (src/pale.rs:98-112): its own match, with the
same shape as `validate_hostname` and host `palewebserial.wordpress.com`. -/
def paleTryParseUrl (u : Option ParsedUrl) : Except String Unit :=
  match u with
  | none => .error "url parse error"
  | some url =>
    match url.host with
    | some h =>
      if "palewebserial.wordpress.com" ≠ h then
        .error "Provided hostname is not palewebserial.wordpress.com."
      else .ok ()
    | none => .error "Url has no host."

/-- Model of `wandering_inn::try_parse_url` (src/wandering_inn.rs:73-76). -/
def wanderingInnTryParseUrl (u : Option ParsedUrl) : Except String Unit :=
  validateHostname u "wanderinginn.com"

/-- Model of `practical_guide::try_parse_url` (src/providers/practical_guide.rs:77-80). -/
def practicalGuideTryParseUrl (u : Option ParsedUrl) : Except String Unit :=
  validateHostname u "practicalguidetoevil.wordpress.com"

/-- Model of `royalroad::try_parse_url` (src/providers/royalroad.rs:28-56): host must
be `www.royalroad.com` or `royalroad.com`; then the first path segment must
be `fiction` and the second must parse as an integer id. -/
def royalroadTryParseUrl (u : Option ParsedUrl) : Except String RoyalRoadBookKind :=
  match u with
  | none => .error "url parse error"
  | some url =>
    if ¬ (url.host = some "www.royalroad.com" ∨ url.host = some "royalroad.com") then
      .error "Provided hostname is not www.royalroad.com or royalroad.com."
    else
      match url.pathSegments with
      | none => .error "No path provided"
      | some segs =>
        if ¬ (segs.head? = some "fiction") then
          .error "Url is not a royalroad book."
        else
          match (segs.drop 1).head? with
          | none => .error "Book id in url not valid."
          | some seg =>
            match seg.toNat? with
            | none => .error "Book id in url not valid."
            | some n => .ok { id := n }

/-! ## Delivery-method verification (C9)

`validate_kindle_email` and `validate_pushover_key`
(src/controllers/delivery_methods/mod.rs:99-143 and 240-284). Each is
modelled as (resulting row, result): a `bail!` performs no write, so the
resulting row is the unchanged input row. The changeset upsert updates
exactly the channel's columns of the existing row. -/

/-- One hour, in microseconds (`chrono::Duration::hours(1)`). -/
def oneHour : Int := 3600000000

/-- Five minutes, in microseconds (`chrono::Duration::minutes(5)`). -/
def fiveMinutes : Int := 300000000

/-- Model of `validate_kindle_email` given the fetched row `dm`, the submitted code
and the current time. -/
def validateKindleEmail (dm : DeliveryMethod) (reqCode : String) (now : Int) :
    DeliveryMethod × Except String Unit :=
  match dm.kindle_email_verification_code, dm.kindle_email_verification_code_time with
  | some code, some time =>
    if reqCode = code ∧ now - time < oneHour then
      match dm.kindle_email with
      | some em =>
        ({ dm with
            kindle_email := some em
            kindle_email_verified := true
            kindle_email_enabled := true
            kindle_email_verification_code_time := none
            kindle_email_verification_code := none },
          .ok ())
      | none => (dm, .error "No kindle email defined in delivery method.")
    else (dm, .error "User provided the incorrect validation code.")
  | _, _ => (dm, .error "User has no in-progress email validations.")

/-- Model of `validate_pushover_key` given the fetched row `dm`, the submitted code
and the current time. -/
def validatePushoverKey (dm : DeliveryMethod) (reqCode : String) (now : Int) :
    DeliveryMethod × Except String Unit :=
  match dm.pushover_verification_code, dm.pushover_verification_code_time with
  | some code, some time =>
    if reqCode = code ∧ now - time < fiveMinutes then
      match dm.pushover_key with
      | some k =>
        ({ dm with
            pushover_key := some k
            pushover_key_verified := true
            pushover_enabled := true
            pushover_verification_code_time := none
            pushover_verification_code := none },
          .ok ())
      | none => (dm, .error "No pushover key defined in delivery method.")
    else (dm, .error "User provided the incorrect validation code.")
  | _, _ => (dm, .error "User has no in-progress pushover validations.")

/-! ## Helper lemmas -/

lemma foldl_min_le_init (l : List Int) (a : Int) : l.foldl min a ≤ a := by
  induction l generalizing a with
  | nil => exact le_refl a
  | cons b l ih =>
    calc (b :: l).foldl min a = l.foldl min (min a b) := rfl
    _ ≤ min a b := ih (min a b)
    _ ≤ a := min_le_left a b

lemma foldl_min_le_mem (l : List Int) (a b : Int) (hb : b ∈ l) : l.foldl min a ≤ b := by
  induction l generalizing a with
  | nil => cases hb
  | cons c l ih =>
    rcases List.mem_cons.mp hb with h | h
    · subst h
      calc (b :: l).foldl min a = l.foldl min (min a b) := rfl
      _ ≤ min a b := foldl_min_le_init l (min a b)
      _ ≤ b := min_le_right a b
    · exact ih (min a c) h

lemma foldl_min_attained (l : List Int) (a : Int) :
    l.foldl min a = a ∨ l.foldl min a ∈ l := by
  induction l generalizing a with
  | nil => exact Or.inl rfl
  | cons c l ih =>
    have : (c :: l).foldl min a = l.foldl min (min a c) := rfl
    rw [this]
    rcases ih (min a c) with h | h
    · rw [h]
      rcases min_choice a c with h2 | h2

      · exact Or.inl h2
      · exact Or.inr (by rw [h2]; exact List.mem_cons_self c l)
    · exact Or.inr (List.mem_cons_of_mem c h)

/-! ## C6: metadata identity in ingestion -/

/-- C6 (confirmed). For every ingestion run over a nonempty provider
listing `x :: xs`: a listed chapter is kept as new iff its `ChapterKind`
metadata is not among the metadata values of the persisted chapters of
that book published at or after the oldest listed `published_at`
(`oldestPublishedAt x xs`, which is a lower bound of the listing attained
by some listed chapter); identity is decided solely by the metadata value;
and every Chapter row inserted afterwards comes from the kept list, so no
row is inserted for a chapter whose metadata already existed. -/
theorem c6_metadata_identity (book : Book) (x : NewChapter) (xs : List NewChapter)
    (db : List Chapter) (c : NewChapter) :
    (c ∈ getNewChapters book (x :: xs) db ↔
      c ∈ x :: xs ∧
        c.metadata ∉
          (db.filter (fun ch => ch.book_id = book.id ∧
            oldestPublishedAt x xs ≤ ch.published_at)).map (·.metadata))
    ∧ (∀ r ∈ x :: xs, oldestPublishedAt x xs ≤ r.published_at)
    ∧ (∃ r ∈ x :: xs, r.published_at = oldestPublishedAt x xs)
    ∧ (∀ locations,
        ∀ p ∈ insertedPairs (getNewChapters book (x :: xs) db) locations,
          p.1 ∈ getNewChapters book (x :: xs) db) := by
  refine ⟨?_, ?_, ?_, ?_⟩
  · simp [getNewChapters, List.mem_filter]
  · intro r hr
    rcases List.mem_cons.mp hr with h | h
    · subst h
      exact foldl_min_le_init _ _
    · exact foldl_min_le_mem _ _ _ (List.mem_map_of_mem _ h)
  · rcases foldl_min_attained (xs.map (·.published_at)) x.published_at with h | h
    · exact ⟨x, List.mem_cons_self x xs, h.symm⟩
    · rcases List.mem_map.mp h with ⟨r, hr, hrp⟩
      exact ⟨r, List.mem_cons_of_mem x hr, hrp⟩
  · intro locations p hp
    rcases List.mem_filterMap.mp hp with ⟨q, hq, hq2⟩
    have hfst : p.1 = q.1 := by
      rcases q with ⟨qc, ql⟩
      cases ql with
      | ok loc => simp at hq2; rw [← hq2]
      | error e => simp at hq2
    rw [hfst]
    exact (List.of_mem_zip hq).1

/-- Witness for C6 at a concrete input. -/
theorem c6_metadata_identity_witness :
    let book : Book :=
      { id := 1, name := "B", author := "a", created_at := 0, updated_at := 0,
        metadata := .Pale }
    let x : NewChapter :=
      { name := "c1", author := "a", book_id := 1, metadata := .Pale "u1",
        published_at := 5 }
    x ∈ getNewChapters book [x] [] := by
  intro book x
  exact (c6_metadata_identity book x [] [] x).1.mpr (by simp)

/-! ## C2: body-fetch failure misaligns chapters and bodies (code bug) -/

/-- Concrete ingestion inputs for the C2 evaluation: chapter `A` whose
body fetch fails, chapter `B` whose fetch and store succeed. -/
def c2ChapA : NewChapter :=
  { name := "A", author := "auth", book_id := 1, metadata := .RoyalRoad 100,
    published_at := 10 }

def c2ChapB : NewChapter :=
  { name := "B", author := "auth", book_id := 1, metadata := .RoyalRoad 101,
    published_at := 20 }

def c2Fetch : NewChapter → Except String String := fun c =>
  if c.name = "A" then .error "fetch failed" else .ok "body-of-B"

def c2Store : String → Except String S3Loc := fun b =>
  .ok { bucket := "bkt", key := b }

/-- C2 (code_bug): evaluating the ingestion tick at the failing input.
`fetch_chapter_bodies` drops the failed fetch of `A` before storing, so it
returns the single location of the body of `B`; the caller then zips the
full new-chapter list `[A, B]` with that shorter list, inserting a Chapter
row for `A` whose ChapterBody is the stored body of `B`, and inserting
nothing for `B`. The claim (and spec.md section 4.6 step 3) require `A` to
be dropped and `B` to be inserted with its own body location. -/
theorem c2_misaligned_insert :
    insertedPairs [c2ChapA, c2ChapB]
        (fetchChapterBodies [c2ChapA, c2ChapB] c2Fetch c2Store)
      = [(c2ChapA, { bucket := "bkt", key := "body-of-B" })]
    ∧ c2Fetch c2ChapA = .error "fetch failed"
    ∧ c2Fetch c2ChapB = .ok "body-of-B"
    ∧ c2Store "body-of-B" = .ok { bucket := "bkt", key := "body-of-B" } := by
  refine ⟨?_, rfl, rfl, rfl⟩
  rfl

/-! ## C3: ingestion stores the raw fetched body, not converter output -/

def c3Chap : NewChapter :=
  { name := "C", author := "auth", book_id := 2, metadata := .Pale "u",
    published_at := 30 }

def c3Fetch : NewChapter → Except String String := fun _ => .ok "<p>raw html</p>"

/-- C3 counterexample: at a concrete input the bytes handed to
`storage::store_book` are exactly the raw fetched body string — the
ingestion pipeline never invokes the e-book converter, refuting "the
stored object for a chapter is converter output, not the raw fetched HTML
string". -/
theorem c3_counterexample :
    storeInputs [c3Chap] c3Fetch = ["<p>raw html</p>"]
    ∧ c3Fetch c3Chap = .ok "<p>raw html</p>" := ⟨rfl, rfl⟩

/-- C3 (amended): for every surviving new chapter the bytes written to the
object store are the raw fetched body string, unmodified — the stored
inputs are exactly the successfully fetched bodies in order; conversion to
`.mobi` happens only later, in the delivery path. -/
theorem c3_raw_body_stored (chapters : List NewChapter)
    (fetch : NewChapter → Except String String) :
    storeInputs chapters fetch = chapters.filterMap (fun c => (fetch c).toOption) := by
  induction chapters with
  | nil => rfl
  | cons c cs ih =>
    unfold storeInputs fetchedPairs at *
    cases h : fetch c with
    | ok b => simp [h, Except.toOption, ih]
    | error e => simp [h, Except.toOption, ih]

/-! ## C8: provider URL validation -/

lemma validateHostname_ok (u : Option ParsedUrl) (v : String) :
    validateHostname u v = .ok () ↔ ∃ p, u = some p ∧ p.host = some v := by
  cases u with
  | none => simp [validateHostname]
  | some p =>
    cases hh : p.host with
    | none => simp [validateHostname, hh]
    | some h =>
      by_cases hv : v = h
      · subst hv
        simp [validateHostname, hh]
      · simp [validateHostname, hh, hv]
        exact fun h2 => hv h2.symm

/-- C8 counterexample: `https://www.royalroad.com/` — the host equals the
provider's expected host `www.royalroad.com`, yet RoyalRoad's
`try_parse_url` rejects it because its path does not start with
`fiction/<id>`, refuting "try_parse_url(u) succeeds iff ... host equals
the provider's expected host ... no other component of u affecting
acceptance". -/
theorem c8_counterexample :
    royalroadTryParseUrl
        (some { scheme := "https", host := some "www.royalroad.com",
                pathSegments := some [""] })
      = .error "Url is not a royalroad book."
    ∧ (some "www.royalroad.com" : Option String) = some "www.royalroad.com" :=
  ⟨rfl, rfl⟩

/-- C8 (amended): each wordpress-family provider accepts a URL iff it
parses and its host equals exactly the provider's expected host
(case-sensitive string equality on the parsed host), nothing else
mattering; RoyalRoad additionally requires the first path segment to be
`fiction` and the second to parse as a numeric id. -/
theorem c8_hostname (u : Option ParsedUrl) :
    (paleTryParseUrl u = .ok () ↔
      ∃ p, u = some p ∧ p.host = some "palewebserial.wordpress.com")
    ∧ (wanderingInnTryParseUrl u = .ok () ↔
      ∃ p, u = some p ∧ p.host = some "wanderinginn.com")
    ∧ (practicalGuideTryParseUrl u = .ok () ↔
      ∃ p, u = some p ∧ p.host = some "practicalguidetoevil.wordpress.com")
    ∧ ((∃ k, royalroadTryParseUrl u = .ok k) ↔
      ∃ p, u = some p
        ∧ (p.host = some "www.royalroad.com" ∨ p.host = some "royalroad.com")
        ∧ ∃ segs, p.pathSegments = some segs
          ∧ segs.head? = some "fiction"
          ∧ ∃ s, (segs.drop 1).head? = some s ∧ (s.toNat?).isSome) := by
  refine ⟨?_, validateHostname_ok u _, validateHostname_ok u _, ?_⟩
  · cases u with
    | none => simp [paleTryParseUrl]
    | some p =>
      cases hh : p.host with
      | none => simp [paleTryParseUrl, hh]
      | some h =>
        by_cases hv : "palewebserial.wordpress.com" = h
        · subst hv
          simp [paleTryParseUrl, hh]
        · simp [paleTryParseUrl, hh, hv]
          exact fun h2 => hv h2.symm
  · cases u with
    | none => simp [royalroadTryParseUrl]
    | some p =>
      by_cases hhost : p.host = some "www.royalroad.com" ∨ p.host = some "royalroad.com"
      · cases hsegs : p.pathSegments with
        | none => simp [royalroadTryParseUrl, hhost, hsegs]
        | some segs =>
          by_cases hfic : segs.head? = some "fiction"
          · cases hid : segs[1]? with
            | none =>
              simp [royalroadTryParseUrl, hhost, hsegs, hfic, List.head?_drop, hid]
            | some s =>
              cases hn : s.toNat? with
              | none =>
                simp [royalroadTryParseUrl, hhost, hsegs, hfic, List.head?_drop,
                  hid, hn]
              | some n =>
                simp [royalroadTryParseUrl, hhost, hsegs, hfic, List.head?_drop,
                  hid, hn]
          · simp [royalroadTryParseUrl, hhost, hsegs, hfic]
      · simp [royalroadTryParseUrl, hhost]

/-- Witness for C8 at a concrete input. -/
theorem c8_hostname_witness :
    paleTryParseUrl
        (some { scheme := "https", host := some "palewebserial.wordpress.com",
                pathSegments := some ["2021", "01", "01"] })
      = .ok () :=
  (c8_hostname _).1.mpr ⟨_, rfl, rfl⟩

/-! ## C9: delivery-method verification -/

/-- A row with an in-progress kindle validation but a NULL kindle email. -/
def c9Dm : DeliveryMethod :=
  { user_id := "u", kindle_email := none, kindle_email_verified := false,
    kindle_email_enabled := false, kindle_email_verification_code_time := some 0,
    kindle_email_verification_code := some "CODE", pushover_key := none,
    pushover_key_verified := false, pushover_enabled := false, created_at := 0,
    updated_at := 0, pushover_verification_code_time := none,
    pushover_verification_code := none }

/-- C9 counterexample: a submission whose code and timestamp are stored,
whose submitted code equals the stored code, and whose code is fresh,
still fails when the stored kindle email is NULL — refuting the claimed
"succeeds if and only if" as stated. -/
theorem c9_counterexample :
    (validateKindleEmail c9Dm "CODE" 0).2
      = .error "No kindle email defined in delivery method."
    ∧ c9Dm.kindle_email_verification_code = some "CODE"
    ∧ c9Dm.kindle_email_verification_code_time = some 0
    ∧ (0 : Int) - 0 < oneHour := by
  exact ⟨rfl, rfl, rfl, by decide⟩

/-- C9 (amended): a kindle (resp. pushover) verification submission
succeeds iff a code and code-timestamp are stored, the submitted code
equals the stored code, the code is younger than 1 hour (resp. 5
minutes), and the stored kindle email (resp. pushover key) is non-null;
on success the verified and enabled flags are set and the code fields are
cleared while every other-channel field is unchanged; on any failing
submission the stored row is unchanged. -/
theorem c9_verification (dm : DeliveryMethod) (reqCode : String) (now : Int) :
    ((validateKindleEmail dm reqCode now).2 = .ok () ↔
      ∃ code t em, dm.kindle_email_verification_code = some code
        ∧ dm.kindle_email_verification_code_time = some t
        ∧ reqCode = code ∧ now - t < oneHour ∧ dm.kindle_email = some em)
    ∧ ((validateKindleEmail dm reqCode now).2 = .ok () →
        ((validateKindleEmail dm reqCode now).1.kindle_email_verified = true
        ∧ (validateKindleEmail dm reqCode now).1.kindle_email_enabled = true
        ∧ (validateKindleEmail dm reqCode now).1.kindle_email_verification_code = none
        ∧ (validateKindleEmail dm reqCode now).1.kindle_email_verification_code_time = none
        ∧ (validateKindleEmail dm reqCode now).1.kindle_email = dm.kindle_email
        ∧ (validateKindleEmail dm reqCode now).1.pushover_key = dm.pushover_key
        ∧ (validateKindleEmail dm reqCode now).1.pushover_key_verified
            = dm.pushover_key_verified
        ∧ (validateKindleEmail dm reqCode now).1.pushover_enabled = dm.pushover_enabled
        ∧ (validateKindleEmail dm reqCode now).1.pushover_verification_code
            = dm.pushover_verification_code
        ∧ (validateKindleEmail dm reqCode now).1.pushover_verification_code_time
            = dm.pushover_verification_code_time))
    ∧ (∀ e, (validateKindleEmail dm reqCode now).2 = .error e →
        (validateKindleEmail dm reqCode now).1 = dm)
    ∧ ((validatePushoverKey dm reqCode now).2 = .ok () ↔
      ∃ code t k, dm.pushover_verification_code = some code
        ∧ dm.pushover_verification_code_time = some t
        ∧ reqCode = code ∧ now - t < fiveMinutes ∧ dm.pushover_key = some k)
    ∧ ((validatePushoverKey dm reqCode now).2 = .ok () →
        ((validatePushoverKey dm reqCode now).1.pushover_key_verified = true
        ∧ (validatePushoverKey dm reqCode now).1.pushover_enabled = true
        ∧ (validatePushoverKey dm reqCode now).1.pushover_verification_code = none
        ∧ (validatePushoverKey dm reqCode now).1.pushover_verification_code_time = none
        ∧ (validatePushoverKey dm reqCode now).1.pushover_key = dm.pushover_key
        ∧ (validatePushoverKey dm reqCode now).1.kindle_email = dm.kindle_email
        ∧ (validatePushoverKey dm reqCode now).1.kindle_email_verified
            = dm.kindle_email_verified
        ∧ (validatePushoverKey dm reqCode now).1.kindle_email_enabled
            = dm.kindle_email_enabled
        ∧ (validatePushoverKey dm reqCode now).1.kindle_email_verification_code
            = dm.kindle_email_verification_code
        ∧ (validatePushoverKey dm reqCode now).1.kindle_email_verification_code_time
            = dm.kindle_email_verification_code_time))
    ∧ (∀ e, (validatePushoverKey dm reqCode now).2 = .error e →
        (validatePushoverKey dm reqCode now).1 = dm) := by
  refine ⟨?_, ?_, ?_, ?_, ?_, ?_⟩
  all_goals
    first
    | unfold validateKindleEmail
    | unfold validatePushoverKey
  · cases hc : dm.kindle_email_verification_code with
    | none => simp [hc]
    | some code =>
      cases ht : dm.kindle_email_verification_code_time with
      | none => simp [hc, ht]
      | some t =>
        by_cases hok : reqCode = code ∧ now - t < oneHour
        · cases he : dm.kindle_email with
          | none => simp [hc, ht, hok, he]
          | some em => simp [hc, ht, hok, he]
        · cases he : dm.kindle_email with
          | none => simp [hc, ht, hok, he]
          | some em => simp [hc, ht, hok, he]
  · cases hc : dm.kindle_email_verification_code with
    | none => simp [hc]
    | some code =>
      cases ht : dm.kindle_email_verification_code_time with
      | none => simp [hc, ht]
      | some t =>
        by_cases hok : reqCode = code ∧ now - t < oneHour
        · cases he : dm.kindle_email with
          | none => simp [hc, ht, hok, he]
          | some em => simp [hc, ht, hok, he]
        · simp [hc, ht, hok]
  · cases hc : dm.kindle_email_verification_code with
    | none => simp [hc]
    | some code =>
      cases ht : dm.kindle_email_verification_code_time with
      | none => simp [hc, ht]
      | some t =>
        by_cases hok : reqCode = code ∧ now - t < oneHour
        · cases he : dm.kindle_email with
          | none => simp [hc, ht, hok, he]
          | some em => simp [hc, ht, hok, he]
        · simp [hc, ht, hok]
  · cases hc : dm.pushover_verification_code with
    | none => simp [hc]
    | some code =>
      cases ht : dm.pushover_verification_code_time with
      | none => simp [hc, ht]
      | some t =>
        by_cases hok : reqCode = code ∧ now - t < fiveMinutes
        · cases he : dm.pushover_key with
          | none => simp [hc, ht, hok, he]
          | some k => simp [hc, ht, hok, he]
        · cases he : dm.pushover_key with
          | none => simp [hc, ht, hok, he]
          | some k => simp [hc, ht, hok, he]
  · cases hc : dm.pushover_verification_code with
    | none => simp [hc]
    | some code =>
      cases ht : dm.pushover_verification_code_time with
      | none => simp [hc, ht]
      | some t =>
        by_cases hok : reqCode = code ∧ now - t < fiveMinutes
        · cases he : dm.pushover_key with
          | none => simp [hc, ht, hok, he]
          | some k => simp [hc, ht, hok, he]
        · simp [hc, ht, hok]
  · cases hc : dm.pushover_verification_code with
    | none => simp [hc]
    | some code =>
      cases ht : dm.pushover_verification_code_time with
      | none => simp [hc, ht]
      | some t =>
        by_cases hok : reqCode = code ∧ now - t < fiveMinutes
        · cases he : dm.pushover_key with
          | none => simp [hc, ht, hok, he]
          | some k => simp [hc, ht, hok, he]
        · simp [hc, ht, hok]

/-- A row with a valid in-progress kindle validation. -/
def c9DmGood : DeliveryMethod :=
  { user_id := "u", kindle_email := some "x@kindle.com",
    kindle_email_verified := false, kindle_email_enabled := false,
    kindle_email_verification_code_time := some 0,
    kindle_email_verification_code := some "OK", pushover_key := none,
    pushover_key_verified := false, pushover_enabled := false, created_at := 0,
    updated_at := 0, pushover_verification_code_time := none,
    pushover_verification_code := none }

/-- Witness for C9 at a concrete input. -/
theorem c9_verification_witness :
    (validateKindleEmail c9DmGood "OK" 10).2 = .ok () :=
  (c9_verification c9DmGood "OK" 10).1.mpr
    ⟨"OK", 0, "x@kindle.com", rfl, rfl, rfl, by decide, rfl⟩

/-! ## C4: the pending-delivery query -/

lemma filter_id_eq_single (chapters : List Chapter) (w : Chapter)
    (hw : w ∈ chapters) (hnd : (chapters.map (·.id)).Nodup) :
    chapters.filter (fun c => (some w.id : Option Nat) = some c.id) = [w] := by
  induction chapters with
  | nil => cases hw
  | cons x xs ih =>
    rw [List.map_cons, List.nodup_cons] at hnd
    rcases List.mem_cons.mp hw with h | h
    · subst h
      have hxs : xs.filter (fun c => (some w.id : Option Nat) = some c.id) = [] := by
        rw [List.filter_eq_nil_iff]
        intro c hc
        simp only [decide_eq_true_eq, Option.some.injEq]
        intro hcontra
        exact hnd.1 (by rw [hcontra]; exact List.mem_map_of_mem (·.id) hc)
      rw [List.filter_cons_of_pos (by simp), hxs]
    · have hneq : ¬ (w.id = x.id) := fun hcontra =>
        hnd.1 (by rw [← hcontra]; exact List.mem_map_of_mem (·.id) h)
      rw [List.filter_cons_of_neg (by simp [hneq]), ih h hnd.2]

lemma lastChapterTimestamp_none (chapters : List Chapter) (s : Subscription)
    (hs : s.last_chapter_id = none) :
    lastChapterTimestamp chapters s = noChapterSentinel := by
  unfold lastChapterTimestamp
  simp [hs]

lemma lastChapterTimestamp_some (chapters : List Chapter) (s : Subscription)
    (w : Chapter) (hw : w ∈ chapters) (hs : s.last_chapter_id = some w.id)
    (hnd : (chapters.map (·.id)).Nodup) :
    lastChapterTimestamp chapters s = w.published_at := by
  unfold lastChapterTimestamp
  rw [hs, filter_id_eq_single chapters w hw hnd]
  rfl

lemma mem_pendingForSub (books : List Book) (chapters : List Chapter)
    (s : Subscription) (c : Chapter) :
    mkRow s c ∈ pendingForSub books chapters s ↔
      ((∃ b ∈ books, b.id = s.book_id) ∧ c ∈ chapters ∧ c.book_id = s.book_id
        ∧ lastChapterTimestamp chapters s < c.published_at) := by
  unfold pendingForSub
  simp only [List.mem_flatMap, List.mem_map, List.mem_filter, decide_eq_true_eq,
    Bool.decide_and, Bool.and_eq_true, mkRow, ChapterWithUser.mk.injEq]
  constructor
  · rintro ⟨b, ⟨hb, hbid⟩, c', ⟨hc', hcb, hlt⟩, _, _, heq⟩
    subst heq
    exact ⟨⟨b, hb, hbid⟩, hc', hbid ▸ hcb, hlt⟩
  · rintro ⟨⟨b, hb, hbid⟩, hc, hcb, hlt⟩
    refine ⟨b, ⟨hb, hbid⟩, c, ⟨hc, ?_, hlt⟩, ?_⟩
    · rw [hbid]; exact hcb
    · simp

/-- Concrete inputs for the C4 counterexample: a never-delivered
subscription and a chapter published one microsecond after the Unix
epoch. -/
def c4Sub : Subscription :=
  { book_id := 1, created_at := 0, user_id := "alice", grouping_quantity := 1,
    last_chapter_id := none }

def c4Book : Book :=
  { id := 1, name := "B", author := "a", created_at := 0, updated_at := 0,
    metadata := .Pale }

def c4Chap : Chapter :=
  { id := 7, name := "c", author := "a", created_at := 0, updated_at := 0,
    book_id := 1, published_at := 1, metadata := .Pale "u" }

/-- C4 counterexample: for a subscription with NULL `last_chapter_id`, a
chapter of the subscribed book published strictly after the Unix epoch is
NOT returned by the pending-delivery query — the query's `coalesce`
fallback is `TIMESTAMP '1982-05-20 22:06:05.944623+00'`, not the epoch,
refuting the claim as stated. -/
theorem c4_counterexample :
    mkRow c4Sub c4Chap ∉ listPendingDeliveries [c4Sub] [c4Book] [c4Chap]
    ∧ c4Sub.last_chapter_id = none
    ∧ c4Chap.book_id = c4Sub.book_id
    ∧ (0 : Int) < c4Chap.published_at := by
  refine ⟨by decide, rfl, rfl, by decide⟩

/-- C4 (amended): the pending-delivery query returns, for a subscription
whose `last_chapter_id` is NULL, exactly the chapters of the subscribed
book with `published_at` strictly greater than the sentinel
`TIMESTAMP '1982-05-20 22:06:05.944623+00'` (`noChapterSentinel`), and for
a watermark referencing a stored chapter `w` (chapter ids being unique)
exactly those with `published_at` strictly greater than `w.published_at`;
each such per-subscription row is part of the full query result. -/
theorem c4_pending_query (books : List Book) (chapters : List Chapter)
    (s : Subscription) (c : Chapter)
    (hnd : (chapters.map (·.id)).Nodup) :
    (s.last_chapter_id = none →
      (mkRow s c ∈ pendingForSub books chapters s ↔
        ((∃ b ∈ books, b.id = s.book_id) ∧ c ∈ chapters
          ∧ c.book_id = s.book_id ∧ noChapterSentinel < c.published_at)))
    ∧ (∀ w ∈ chapters, s.last_chapter_id = some w.id →
      (mkRow s c ∈ pendingForSub books chapters s ↔
        ((∃ b ∈ books, b.id = s.book_id) ∧ c ∈ chapters
          ∧ c.book_id = s.book_id ∧ w.published_at < c.published_at)))
    ∧ (∀ subs : List Subscription, s ∈ subs →
        ∀ r ∈ pendingForSub books chapters s,
          r ∈ listPendingDeliveries subs books chapters) := by
  refine ⟨?_, ?_, ?_⟩
  · intro hs
    rw [mem_pendingForSub, lastChapterTimestamp_none chapters s hs]
  · intro w hw hs
    rw [mem_pendingForSub, lastChapterTimestamp_some chapters s w hw hs hnd]
  · intro subs hsubs r hr
    exact List.mem_flatMap.mpr ⟨s, hsubs, hr⟩

/-- A chapter published after the 1982 sentinel, for the C4 witness. -/
def c4ChapLate : Chapter :=
  { id := 8, name := "d", author := "a", created_at := 0, updated_at := 0,
    book_id := 1, published_at := 390780365944624, metadata := .Pale "v" }

/-- Witness for C4 at a concrete input. -/
theorem c4_pending_query_witness :
    mkRow c4Sub c4ChapLate ∈ pendingForSub [c4Book] [c4ChapLate] c4Sub :=
  ((c4_pending_query [c4Book] [c4ChapLate] c4Sub c4ChapLate (by decide)).1
    rfl).mpr ⟨⟨c4Book, by decide, rfl⟩, by decide, rfl, by decide⟩

/-! ## C5: grouping of the pending rows -/

lemma mem_insertByPublishedAt {a c : Chapter} {l : List Chapter}
    (h : a ∈ insertByPublishedAt c l) : a = c ∨ a ∈ l := by
  induction l with
  | nil =>
    rcases List.mem_singleton.mp h with h2
    exact Or.inl h2
  | cons x xs ih =>
    unfold insertByPublishedAt at h
    split at h
    · rcases List.mem_cons.mp h with h2 | h2
      · exact Or.inr (by rw [h2]; exact List.mem_cons_self x xs)
      · rcases ih h2 with h3 | h3
        · exact Or.inl h3
        · exact Or.inr (List.mem_cons_of_mem x h3)
    · split at h
      · exact Or.inr h
      · rcases List.mem_cons.mp h with h2 | h2
        · exact Or.inl h2
        · exact Or.inr h2

lemma subset_insertByPublishedAt {a c : Chapter} {l : List Chapter}
    (h : a ∈ l) : a ∈ insertByPublishedAt c l := by
  induction l with
  | nil => cases h
  | cons x xs ih =>
    unfold insertByPublishedAt
    split
    · rcases List.mem_cons.mp h with h2 | h2
      · exact h2 ▸ List.mem_cons_self x _
      · exact List.mem_cons_of_mem x (ih h2)
    · split
      · exact h
      · exact List.mem_cons_of_mem c h

lemma covers_insertByPublishedAt (c : Chapter) (l : List Chapter) :
    ∃ a ∈ insertByPublishedAt c l, a.published_at = c.published_at := by
  induction l with
  | nil => exact ⟨c, List.mem_singleton_self c, rfl⟩
  | cons x xs ih =>
    unfold insertByPublishedAt
    split
    · rcases ih with ⟨a, ha, hpub⟩
      exact ⟨a, List.mem_cons_of_mem x ha, hpub⟩
    · split
      · rename_i hlt heq
        exact ⟨x, List.mem_cons_self x xs, heq.symm⟩
      · exact ⟨c, List.mem_cons_self c _, rfl⟩

lemma sorted_insertByPublishedAt {c : Chapter} {l : List Chapter}
    (h : l.Pairwise (fun a b => a.published_at < b.published_at)) :
    (insertByPublishedAt c l).Pairwise (fun a b => a.published_at < b.published_at) := by
  induction l with
  | nil => exact List.pairwise_singleton _ c
  | cons x xs ih =>
    rw [List.pairwise_cons] at h
    unfold insertByPublishedAt
    split
    · rename_i hlt
      rw [List.pairwise_cons]
      refine ⟨?_, ih h.2⟩
      intro b hb
      rcases mem_insertByPublishedAt hb with h2 | h2
      · rw [h2]; exact hlt
      · exact h.1 b h2
    · split
      · exact List.pairwise_cons.mpr h
      · rename_i hnlt hneq
        have hcx : c.published_at < x.published_at := by
          rcases lt_trichotomy c.published_at x.published_at with h3 | h3 | h3
          · exact h3
          · exact absurd h3 hneq
          · exact absurd h3 hnlt
        rw [List.pairwise_cons]
        refine ⟨?_, List.pairwise_cons.mpr h⟩
        intro b hb
        rcases List.mem_cons.mp hb with h2 | h2
        · rw [h2]; exact hcx
        · exact lt_trans hcx (h.1 b h2)

lemma groupChapters_fold (uid : String) (bid : Nat) (gq : Int) :
    ∀ (rows : List ChapterWithUser) (acc : List Chapter),
      (acc.Pairwise (fun a b => a.published_at < b.published_at) →
        (rows.foldl
          (fun acc r =>
            if r.user_id = uid ∧ r.chapter.book_id = bid ∧ r.grouping_quantity = gq
            then insertByPublishedAt r.chapter acc else acc) acc).Pairwise
          (fun a b => a.published_at < b.published_at))
      ∧ (∀ c ∈ rows.foldl
          (fun acc r =>
            if r.user_id = uid ∧ r.chapter.book_id = bid ∧ r.grouping_quantity = gq
            then insertByPublishedAt r.chapter acc else acc) acc,
          c ∈ acc ∨ ∃ r ∈ rows,
            (r.user_id = uid ∧ r.chapter.book_id = bid ∧ r.grouping_quantity = gq)
              ∧ r.chapter = c)
      ∧ (∀ b ∈ acc, ∃ c ∈ rows.foldl
          (fun acc r =>
            if r.user_id = uid ∧ r.chapter.book_id = bid ∧ r.grouping_quantity = gq
            then insertByPublishedAt r.chapter acc else acc) acc,
          c.published_at = b.published_at)
      ∧ (∀ r ∈ rows,
          (r.user_id = uid ∧ r.chapter.book_id = bid ∧ r.grouping_quantity = gq) →
          ∃ c ∈ rows.foldl
            (fun acc r =>
              if r.user_id = uid ∧ r.chapter.book_id = bid ∧ r.grouping_quantity = gq
              then insertByPublishedAt r.chapter acc else acc) acc,
            c.published_at = r.chapter.published_at) := by
  intro rows
  induction rows with
  | nil =>
    intro acc
    refine ⟨fun h => h, fun c hc => Or.inl hc, fun b hb => ⟨b, hb, rfl⟩, ?_⟩
    intro r hr
    cases hr
  | cons r rest ih =>
    intro acc
    by_cases hkey : r.user_id = uid ∧ r.chapter.book_id = bid ∧ r.grouping_quantity = gq
    · have hstep : (List.foldl
          (fun acc r =>
            if r.user_id = uid ∧ r.chapter.book_id = bid ∧ r.grouping_quantity = gq
            then insertByPublishedAt r.chapter acc else acc) acc (r :: rest))
          = List.foldl
            (fun acc r =>
              if r.user_id = uid ∧ r.chapter.book_id = bid ∧ r.grouping_quantity = gq
              then insertByPublishedAt r.chapter acc else acc)
            (insertByPublishedAt r.chapter acc) rest := by
        rw [List.foldl_cons, if_pos hkey]
      rw [hstep]
      refine ⟨?_, ?_, ?_, ?_⟩
      · intro hs
        exact (ih (insertByPublishedAt r.chapter acc)).1 (sorted_insertByPublishedAt hs)
      · intro c hc
        rcases (ih (insertByPublishedAt r.chapter acc)).2.1 c hc with h2 | h2
        · rcases mem_insertByPublishedAt h2 with h3 | h3
          · exact Or.inr ⟨r, List.mem_cons_self r rest, hkey, h3.symm⟩
          · exact Or.inl h3
        · rcases h2 with ⟨r', hr', hk', hc'⟩
          exact Or.inr ⟨r', List.mem_cons_of_mem r hr', hk', hc'⟩
      · intro b hb
        exact (ih (insertByPublishedAt r.chapter acc)).2.2.1 b
          (subset_insertByPublishedAt hb)
      · intro r' hr' hk'
        rcases List.mem_cons.mp hr' with h2 | h2
        · subst h2
          rcases covers_insertByPublishedAt r'.chapter acc with ⟨a, ha, hpub⟩
          rcases (ih (insertByPublishedAt r'.chapter acc)).2.2.1 a ha with ⟨c, hc, hcpub⟩
          exact ⟨c, hc, hcpub.trans hpub⟩
        · exact (ih (insertByPublishedAt r.chapter acc)).2.2.2 r' h2 hk'
    · have hstep : (List.foldl
          (fun acc r =>
            if r.user_id = uid ∧ r.chapter.book_id = bid ∧ r.grouping_quantity = gq
            then insertByPublishedAt r.chapter acc else acc) acc (r :: rest))
          = List.foldl
            (fun acc r =>
              if r.user_id = uid ∧ r.chapter.book_id = bid ∧ r.grouping_quantity = gq
              then insertByPublishedAt r.chapter acc else acc) acc rest := by
        rw [List.foldl_cons, if_neg hkey]
      rw [hstep]
      refine ⟨(ih acc).1, ?_, (ih acc).2.2.1, ?_⟩
      · intro c hc
        rcases (ih acc).2.1 c hc with h2 | h2
        · exact Or.inl h2
        · rcases h2 with ⟨r', hr', hk', hc'⟩
          exact Or.inr ⟨r', List.mem_cons_of_mem r hr', hk', hc'⟩
      · intro r' hr' hk'
        rcases List.mem_cons.mp hr' with h2 | h2
        · exact absurd (h2 ▸ hk') hkey
        · exact (ih acc).2.2.2 r' h2 hk'

/-- Concrete inputs for the C5 counterexample: two rows of the same
delivery group whose chapters have different ids but equal
`published_at`. -/
def c5Chap1 : Chapter :=
  { id := 1, name := "one", author := "a", created_at := 0, updated_at := 0,
    book_id := 1, published_at := 100, metadata := .Pale "u1" }

def c5Chap2 : Chapter :=
  { id := 2, name := "two", author := "a", created_at := 0, updated_at := 0,
    book_id := 1, published_at := 100, metadata := .Pale "u2" }

def c5Row1 : ChapterWithUser :=
  { user_id := "u", grouping_quantity := 2, chapter := c5Chap1 }

def c5Row2 : ChapterWithUser :=
  { user_id := "u", grouping_quantity := 2, chapter := c5Chap2 }

/-- C5 counterexample: two distinct chapters with different ids but the
same `published_at` in the same `(user_id, book_id, grouping_quantity)`
group — the grouping loop keeps only the first (its binary search
deduplicates by `published_at`, not by chapter id), refuting "two distinct
chapters with different ids are both kept in the group even when they
share the same published_at". -/
theorem c5_counterexample :
    groupChapters [c5Row1, c5Row2] "u" 1 2 = [c5Chap1]
    ∧ c5Chap1.id ≠ c5Chap2.id
    ∧ c5Chap1.published_at = c5Chap2.published_at := by
  refine ⟨rfl, by decide, rfl⟩

/-- C5 (amended): each `(user_id, book_id, grouping_quantity)` group's
chapter list is strictly increasing in `published_at` (hence ascending,
with no chapter — and in particular no chapter id — appearing twice);
every listed chapter comes from a row of the group; and every row of the
group has its `published_at` represented in the list. Deduplication is by
`published_at`: of rows with equal `published_at` only the first inserted
chapter is kept, even when ids differ. -/
theorem c5_grouping (rows : List ChapterWithUser) (uid : String) (bid : Nat)
    (gq : Int) :
    ((groupChapters rows uid bid gq).Pairwise
      (fun a b => a.published_at < b.published_at))
    ∧ (∀ c ∈ groupChapters rows uid bid gq,
        ∃ r ∈ rows,
          (r.user_id = uid ∧ r.chapter.book_id = bid ∧ r.grouping_quantity = gq)
            ∧ r.chapter = c)
    ∧ (∀ r ∈ rows,
        (r.user_id = uid ∧ r.chapter.book_id = bid ∧ r.grouping_quantity = gq) →
        ∃ c ∈ groupChapters rows uid bid gq,
          c.published_at = r.chapter.published_at)
    ∧ (groupChapters rows uid bid gq).Nodup := by
  have h := groupChapters_fold uid bid gq rows []
  have hsorted := h.1 (List.Pairwise.nil)
  refine ⟨hsorted, ?_, h.2.2.2, ?_⟩
  · intro c hc
    rcases h.2.1 c hc with h2 | h2
    · cases h2
    · exact h2
  · exact List.Pairwise.imp (fun hab => fun hEq => by
      rw [hEq] at hab
      exact lt_irrefl _ hab) hsorted

/-- Witness for C5 at a concrete input. -/
theorem c5_grouping_witness :
    ∃ c ∈ groupChapters [c5Row1] "u" 1 2,
      c.published_at = c5Row1.chapter.published_at :=
  (c5_grouping [c5Row1] "u" 1 2).2.2.1 c5Row1 (List.mem_singleton_self c5Row1)
    ⟨rfl, rfl, rfl⟩

/-! ## C7: the batching threshold -/

lemma zipSort_length (chapters : List Chapter) (bodies : List ChapterBody) :
    ((chapters.zip bodies).insertionSort
      (fun a b => a.1.published_at ≤ b.1.published_at)).length
      = min chapters.length bodies.length := by
  rw [List.length_insertionSort, List.length_zip]

/-- Concrete inputs for the C7 counterexample: a group of two pending
chapters of which only one has a `chapter_bodies` row, with threshold 2
and a fully disabled user. -/
def c7Dm : DeliveryMethod :=
  { user_id := "u", kindle_email := none, kindle_email_verified := false,
    kindle_email_enabled := false, kindle_email_verification_code_time := none,
    kindle_email_verification_code := none, pushover_key := none,
    pushover_key_verified := false, pushover_enabled := false, created_at := 0,
    updated_at := 0, pushover_verification_code_time := none,
    pushover_verification_code := none }

def c7Chap1 : Chapter :=
  { id := 1, name := "one", author := "a", created_at := 0, updated_at := 0,
    book_id := 1, published_at := 10, metadata := .Pale "u1" }

def c7Chap2 : Chapter :=
  { id := 2, name := "two", author := "a", created_at := 0, updated_at := 0,
    book_id := 1, published_at := 20, metadata := .Pale "u2" }

def c7Body1 : ChapterBody := { key := "k1", bucket := "b", chapter_id := 1 }

def c7Env : GroupEnv :=
  { dbBodies := .ok [c7Body1], s3Fetch := fun _ => .ok "text",
    convert := fun s => .ok s, pushoverSend := .ok (), emailSend := .ok (),
    dbUpdate := .ok () }

/-- C7 counterexample: the group has 2 pending chapters and threshold
`N = 2`, but only 1 chapter-body row, so the zip is 1 pair long and the
group is NOT dispatched — the count compared against `N` is
`min(|chapters|, |body rows|)`, not the number of pending chapters,
refuting the last clause of the claim. -/
theorem c7_counterexample :
    (deliverGroup c7Dm 2 [c7Chap1, c7Chap2] c7Env).dispatched = false
    ∧ (deliverGroup c7Dm 2 [c7Chap1, c7Chap2] c7Env).watermark = none
    ∧ (2 : Int) ≤ (([c7Chap1, c7Chap2] : List Chapter).length : Int)
    ∧ c7Env.dbBodies = .ok [c7Body1] := by
  refine ⟨rfl, rfl, by decide, rfl⟩

/-- C7 (amended): when the number of pending chapters in the group is
below `N` nothing is sent and the watermark is untouched; the group is
dispatched exactly when `min(|pending chapters|, |chapter-body rows
found|) ≥ N` — the count compared against `N` is the length of the zip of
the group's chapters with their body rows, which equals the number of
pending chapters only when every pending chapter has a body row. -/
theorem c7_threshold (dm : DeliveryMethod) (gq : Int) (chapters : List Chapter)
    (env : GroupEnv) (bodies : List ChapterBody)
    (hdb : env.dbBodies = .ok bodies) :
    ((chapters.length : Int) < gq →
      deliverGroup dm gq chapters env =
        { dispatched := false, pushoverAttempted := false, emailAttempted := false,
          watermark := none, failed := false })
    ∧ ((deliverGroup dm gq chapters env).dispatched = true ↔
        gq ≤ ((min chapters.length bodies.length : Nat) : Int)) := by
  unfold deliverGroup
  rw [hdb]
  simp only [zipSort_length]
  constructor
  · intro hlt
    rw [if_neg]
    intro hcontra
    have hmin : ((min chapters.length bodies.length : Nat) : Int)
        ≤ (chapters.length : Int) :=
      Nat.cast_le.mpr (Nat.min_le_left _ _)
    exact absurd (le_trans hcontra hmin) (not_le.mpr hlt)
  · by_cases hc : gq ≤ ((min chapters.length bodies.length : Nat) : Int)
    · rw [if_pos hc]
      refine ⟨fun _ => hc, fun _ => ?_⟩
      cases hp : (pushoverStep dm env).2 with
      | error e => simp [hp]
      | ok _ =>
        cases hk : (kindleStep dm ((chapters.zip bodies).insertionSort
            (fun a b => a.1.published_at ≤ b.1.published_at)) env).2 with
        | error e => simp [hp, hk]
        | ok _ =>
          cases hu : env.dbUpdate with
          | error e => simp [hp, hk, hu]
          | ok _ => simp [hp, hk, hu]
    · rw [if_neg hc]
      exact iff_of_false (by simp) hc

/-- Witness for C7 at a concrete input (threshold 3, two pending
chapters: the group is skipped untouched). -/
theorem c7_threshold_witness :
    deliverGroup c7Dm 3 [c7Chap1, c7Chap2] c7Env =
      { dispatched := false, pushoverAttempted := false, emailAttempted := false,
        watermark := none, failed := false } :=
  (c7_threshold c7Dm 3 [c7Chap1, c7Chap2] c7Env [c7Body1] rfl).1 (by decide)

/-! ## C1: watermark advance and channel failure -/

lemma collectExcept_ok {α : Type} (l : List (Except String α))
    (h : ∀ x ∈ l, ∃ a, x = .ok a) : ∃ l2, collectExcept l = .ok l2 := by
  induction l with
  | nil => exact ⟨[], rfl⟩
  | cons x xs ih =>
    rcases h x (List.mem_cons_self x xs) with ⟨a, ha⟩
    rcases ih (fun y hy => h y (List.mem_cons_of_mem x hy)) with ⟨l2, hl2⟩
    subst ha
    exact ⟨a :: l2, by unfold collectExcept; rw [hl2]⟩

/-- Concrete inputs for the C1 counterexample: a delivery group whose user
has NO channel enabled, whose threshold is met, whose sends and DB update
would succeed, but whose object-store fetch fails. -/
def c1Chap : Chapter :=
  { id := 3, name := "three", author := "a", created_at := 0, updated_at := 0,
    book_id := 1, published_at := 10, metadata := .Pale "u3" }

def c1Body : ChapterBody := { key := "k", bucket := "b", chapter_id := 3 }

def c1Env : GroupEnv :=
  { dbBodies := .ok [c1Body], s3Fetch := fun _ => .error "s3 down",
    convert := fun s => .ok s, pushoverSend := .ok (), emailSend := .ok (),
    dbUpdate := .ok () }

/-- C1 counterexample: no channel is enabled and the threshold is met, yet
the watermark is NOT advanced, because `send_kindle_if_enabled` fetches
the bodies from the object store and converts them even when the kindle
channel is disabled, and that fetch fails here — refuting "if ... both
succeed, or no channel is enabled, then the subscription's last_chapter_id
is updated". -/
theorem c1_counterexample :
    (deliverGroup c7Dm 1 [c1Chap] c1Env).watermark = none
    ∧ (deliverGroup c7Dm 1 [c1Chap] c1Env).failed = true
    ∧ c7Dm.get_pushover_key = none
    ∧ c7Dm.get_kindle_email = none
    ∧ (1 : Int) ≤ (([c1Chap] : List Chapter).length : Int) := by
  refine ⟨rfl, rfl, rfl, rfl, by decide⟩

/-- C1 (amended): for a group meeting the threshold, when the enabled
channels succeed AND the artifact assembly (object-store fetches and
conversion, which run even when no channel is enabled) AND the watermark
DB write succeed, `last_chapter_id` is advanced to the id of the last
chapter of the group's list (kept in `published_at`-ascending order by the
grouping step); if the pushover send or the kindle email send fails, the
watermark is left untouched and the group is recorded as failed, so the
same chapters are pending again next tick. -/
theorem c1_watermark (dm : DeliveryMethod) (gq : Int) (chapters : List Chapter)
    (env : GroupEnv) (bodies : List ChapterBody)
    (hdb : env.dbBodies = .ok bodies)
    (hthr : gq ≤ ((min chapters.length bodies.length : Nat) : Int)) :
    (((dm.get_pushover_key = none ∨ env.pushoverSend = .ok ()) →
      (dm.get_kindle_email = none ∨ env.emailSend = .ok ()) →
      (∀ cb, ∃ t, env.s3Fetch cb = .ok t) →
      (∀ s, ∃ m, env.convert s = .ok m) →
      env.dbUpdate = .ok () →
      ((deliverGroup dm gq chapters env).watermark
          = (chapters.getLast?).map (·.id)
        ∧ (deliverGroup dm gq chapters env).failed = false)))
    ∧ (∀ e, dm.get_pushover_key ≠ none → env.pushoverSend = .error e →
        ((deliverGroup dm gq chapters env).watermark = none
          ∧ (deliverGroup dm gq chapters env).failed = true))
    ∧ (∀ e, dm.get_kindle_email ≠ none → env.emailSend = .error e →
        ((deliverGroup dm gq chapters env).watermark = none
          ∧ (deliverGroup dm gq chapters env).failed = true)) := by
  have hcond : gq ≤ ((((chapters.zip bodies).insertionSort
      (fun a b => a.1.published_at ≤ b.1.published_at)).length : Nat) : Int) := by
    rw [zipSort_length]
    exact hthr
  refine ⟨?_, ?_, ?_⟩
  · intro hpush hmail hfetch hconv hupd
    have hp2 : (pushoverStep dm env).2 = .ok () := by
      unfold pushoverStep
      cases hpk : dm.get_pushover_key with
      | none => rfl
      | some k =>
        rcases hpush with h | h
        · rw [hpk] at h; cases h
        · simpa using h
    have hk2 : (kindleStep dm ((chapters.zip bodies).insertionSort
        (fun a b => a.1.published_at ≤ b.1.published_at)) env).2 = .ok () := by
      unfold kindleStep
      rcases collectExcept_ok
          (((chapters.zip bodies).insertionSort
            (fun a b => a.1.published_at ≤ b.1.published_at)).map
              (fun cb => env.s3Fetch cb.2))
          (by
            intro x hx
            rcases List.mem_map.mp hx with ⟨cb, _, hcb⟩
            rcases hfetch cb.2 with ⟨t, ht⟩
            exact ⟨t, by rw [← hcb, ht]⟩) with ⟨texts, htexts⟩
      rcases hconv (String.join texts) with ⟨m, hm⟩
      simp only [htexts, hm]
      cases hke : dm.get_kindle_email with
      | none => rfl
      | some em =>
        rcases hmail with h | h
        · rw [hke] at h; cases h
        · exact h
    unfold deliverGroup
    rw [hdb]
    simp only []
    rw [if_pos hcond]
    simp [hp2, hk2, hupd]
  · intro e hpk hpe
    have hp2 : (pushoverStep dm env).2 = .error e := by
      unfold pushoverStep
      cases hk : dm.get_pushover_key with
      | none => exact absurd hk hpk
      | some k => simpa using hpe
    unfold deliverGroup
    rw [hdb]
    simp only []
    rw [if_pos hcond]
    simp [hp2]
  · intro e hke hee
    have hk2 : ∃ e2, (kindleStep dm ((chapters.zip bodies).insertionSort
        (fun a b => a.1.published_at ≤ b.1.published_at)) env).2 = .error e2 := by
      unfold kindleStep
      cases hcoll : collectExcept
          (((chapters.zip bodies).insertionSort
            (fun a b => a.1.published_at ≤ b.1.published_at)).map
              (fun cb => env.s3Fetch cb.2)) with
      | error e3 =>
        refine ⟨e3, ?_⟩
        simp only [hcoll]
      | ok texts =>
        cases hcv : env.convert (String.join texts) with
        | error e3 =>
          refine ⟨e3, ?_⟩
          simp only [hcoll, hcv]
        | ok m =>
          cases hkem : dm.get_kindle_email with
          | none => exact absurd hkem hke
          | some em =>
            refine ⟨e, ?_⟩
            simp only [hcoll, hcv, hkem]
            exact hee
    unfold deliverGroup
    rw [hdb]
    simp only []
    rw [if_pos hcond]
    cases hp : (pushoverStep dm env).2 with
    | error e2 => simp [hp]
    | ok _ =>
      rcases hk2 with ⟨e2, hk2⟩
      simp [hp, hk2]

/-- A fully succeeding environment for the C1 witness. -/
def c1EnvOk : GroupEnv :=
  { dbBodies := .ok [c1Body], s3Fetch := fun _ => .ok "text",
    convert := fun s => .ok s, pushoverSend := .ok (), emailSend := .ok (),
    dbUpdate := .ok () }

/-- Witness for C1 at a concrete input: with no channel enabled and every
assembly step succeeding, the watermark is advanced to the last chapter
of the group. -/
theorem c1_watermark_witness :
    (deliverGroup c7Dm 1 [c1Chap] c1EnvOk).watermark
      = (([c1Chap] : List Chapter).getLast?).map (·.id)
    ∧ (deliverGroup c7Dm 1 [c1Chap] c1EnvOk).failed = false :=
  (c1_watermark c7Dm 1 [c1Chap] c1EnvOk [c1Body] rfl (by decide)).1
    (Or.inl rfl) (Or.inl rfl) (fun cb => ⟨"text", rfl⟩) (fun s => ⟨s, rfl⟩) rfl

/-! ## C10: missing delivery-method row panics the delivery tick -/

/-- C10 (confirmed). If any user id appearing in the grouped pending map
has no delivery-method row in the lookup map, `deliver_new_chapters`
panics (`.get(&user_id).unwrap()` on a missing key, modelled as `none`):
the tick does not complete, and no group of that tick is skipped or
logged around the missing row. Hence the delivery tick completes without
panicking only if every pending user has a delivery-method row. -/
theorem c10_panic_on_missing_delivery_method
    (groups : List (String × List ((Nat × Int) × List Chapter)))
    (methods : List (String × DeliveryMethod)) (books : List (Nat × Book))
    (env : String → Nat → Int → GroupEnv)
    (h : ∃ p ∈ groups, (List.lookup p.1 methods) = none) :
    deliverNewChapters groups methods books env = none := by
  induction groups with
  | nil =>
    rcases h with ⟨p, hp, _⟩
    cases hp
  | cons g rest ih =>
    obtain ⟨u, gs⟩ := g
    rcases h with ⟨p, hp, hnone⟩
    rcases List.mem_cons.mp hp with h2 | h2
    · subst h2
      unfold deliverNewChapters
      rw [hnone]
    · unfold deliverNewChapters
      cases hm : List.lookup u methods with
      | none => rfl
      | some dm =>
        cases hpg : processGroups dm u gs books env with
        | none => simp [hpg]
        | some os => simp [hpg, ih ⟨p, h2, hnone⟩]

/-- An all-succeeding per-group environment for the C10 witness. -/
def c10Env : String → Nat → Int → GroupEnv := fun _ _ _ =>
  { dbBodies := .ok [], s3Fetch := fun _ => .ok "", convert := fun s => .ok s,
    pushoverSend := .ok (), emailSend := .ok (), dbUpdate := .ok () }

/-- Witness for C10 at a concrete input: a pending user with no
delivery-method row panics the tick. -/
theorem c10_panic_witness :
    deliverNewChapters [("alice", [])] [] [] c10Env = none :=
  c10_panic_on_missing_delivery_method [("alice", [])] [] [] c10Env
    ⟨("alice", []), List.mem_singleton_self _, rfl⟩

end Cereal
